import Mathlib

/-!
Verification of the fan2go control-plane core (the `internal` package in
its two revisions, plus `util` helpers) against its natural-language
specification.

The Go sources are shallowly embedded: the fan-curve table
`map[int][]float64` (persisted form) and `map[int]*rolling.PointPolicy`
(in-memory form) become association lists over `Int` keys and `ℚ` sample
lists (the `float64` arithmetic in these functions is exact on the values
involved, so rationals model it faithfully), pointers become `Option`,
and calls that `panic` or `ui.Fatal` become `Except` errors.  Functions
of the repository that are not under `src/` (`util.Avg`, `util.Ratio`,
`util.updateSimpleMovingAvg`, `util.FindFilesMatching`) are modelled from
the spec where needed; each such definition says so in its doc comment.
-/

namespace Fan2go

attribute [local semireducible] Rat.mul Rat.inv Rat.add Rat.sub

/-- Constant `MaxPwmValue = 255` from the `internal` package. -/
def MaxPwmValue : Int := 255

/-- Constant `MinPwmValue = 0` from the `internal` package. -/
def MinPwmValue : Int := 0

/-- Constant `InitialLastSetPwm = -10` from the `internal` package. -/
def InitialLastSetPwm : Int := -10

/-- A fan-curve table: the Go `map[int][]float64` (persisted form) and
the Go `map[int]*rolling.PointPolicy` (in-memory form, a window reduced
to the list of its retained values, oldest first) are both embedded as an
association list from PWM key to sample list. -/
abbrev CurveList := List (Int × List ℚ)

/-- Modelled from the spec: `util.Avg` is not under `src/`; per the spec
a window average is the mean of the samples (`avg(w)` is "the window
mean"). -/
def listAvg (vs : List ℚ) : ℚ := vs.sum / vs.length

/-- Go's `int(x)` conversion on a `float64` truncates toward zero; on a
rational this is T-division of numerator by denominator. -/
def ratTrunc (q : ℚ) : Int := q.num.tdiv (q.den : Int)

/-- The truncated window average the `GetPwmBoundaries` loop computes for
key `k`: `avgRpm := int(getWindowAvg(window))` with
`window := (*pwmRpmMap)[pwm]`. -/
def truncAvgAt (m : CurveList) (k : Int) : Int :=
  ratTrunc (listAvg ((m.lookup k).getD []))

/-- The body of the `for _, pwm := range keys` loop of
`GetPwmBoundaries`, threading the state `(maxRpm, maxPwm, startPwm)`
through the sorted key list exactly as the Go loop does. -/
def gpbLoop (m : CurveList) : List Int → Int × Int × Int → Int × Int × Int
  | [], st => st
  | k :: ks, (maxRpm, maxPwm, startPwm) =>
    let avgRpm := truncAvgAt m k
    let st1 := if avgRpm > maxRpm then (avgRpm, k) else (maxRpm, maxPwm)
    let startPwm1 := if avgRpm > 0 ∧ k < startPwm then k else startPwm
    gpbLoop m ks (st1.1, st1.2, startPwm1)

/-- `GetPwmBoundaries` on a non-nil curve-data map: `startPwm` and
`maxPwm` start at 255; an empty map yields `(0, 255)`; otherwise the keys
are sorted ascending (`sort.Ints`) and the loop above runs with
`maxRpm = 0`. -/
def GetPwmBoundaries (m : CurveList) : Int × Int :=
  if m.length ≤ 0 then (0, 255)
  else
    let keys := (m.map Prod.fst).insertionSort (· ≤ ·)
    let r := gpbLoop m keys (0, 255, 255)
    (r.2.2, r.2.1)

/-- `GetPwmBoundaries` as called on the fan's curve-data pointer: the Go
function evaluates `keys := make([]int, len(*pwmRpmMap))` before its
`pwmRpmMap == nil` guard, so a nil pointer panics at the dereference and
the guard's nil test is never reached with a nil pointer. -/
def GetPwmBoundariesPtr (pm : Option CurveList) : Except String (Int × Int) :=
  match pm with
  | none => Except.error "invalid memory address or nil pointer dereference"
  | some m => Except.ok (GetPwmBoundaries m)

namespace GpbLoop

/-- The `(maxRpm, maxPwm)` component of the `GetPwmBoundaries` loop in
isolation. -/
def maxFold (a : Int → Int) : List Int → Int × Int → Int × Int
  | [], st => st
  | k :: ks, (r, p) => maxFold a ks (if a k > r then (a k, k) else (r, p))

/-- The `startPwm` component of the `GetPwmBoundaries` loop in
isolation. -/
def startFold (a : Int → Int) : List Int → Int → Int
  | [], s => s
  | k :: ks, s => startFold a ks (if a k > 0 ∧ k < s then k else s)

end GpbLoop

/-- The sorted `keys` slice built by `GetPwmBoundaries`. -/
def sortedKeys (m : CurveList) : List Int := (m.map Prod.fst).insertionSort (· ≤ ·)

/-- Modelled from the claim's words for comparison: the `start_pwm` the
claim describes — the smallest PWM key whose (exact) window-average RPM
is greater than 0, and 0 when no key has a positive average. -/
def specStartPwmClaim (m : CurveList) : Int :=
  match (sortedKeys m).filter (fun k => decide (0 < listAvg ((m.lookup k).getD []))) with
  | [] => 0
  | k :: _ => k

/-- Modelled from the spec: `util.Ratio(value, low, high)` is not under
`src/`; per the spec's linear interpolation it is the position of `value`
between `low` and `high`. -/
def ratio (value low high : ℚ) : ℚ := (value - low) / (high - low)

/-- The window-filling loop of `AttachFanCurveData`: `k` counts from 0 up
to the rolling-window size; while `k < len(pointValues)` the sample
`pointValues[k]` is appended, afterwards the running average `currentAvg`
is appended, where `currentAvg` is the first sample at `k = 0` and
`(currentAvg + rpm) / 2` subsequently. -/
def fillWindowAux (vs : List ℚ) : Nat → Nat → ℚ → List ℚ
  | 0, _, _ => []
  | n + 1, k, cur =>
    let rpm := if h : k < vs.length then vs[k] else cur
    let cur1 := if k = 0 then rpm else (cur + rpm) / 2
    rpm :: fillWindowAux vs n (k + 1) cur1

/-- The contents of the rolling window `AttachFanCurveData` builds for
one PWM from the value list `vs`, with rolling-window size `ws`:
appending exactly `ws` values to the fresh size-`ws` rolling window
retains all of them, so the window is the list of appended values. -/
def fillWindow (ws : Nat) (vs : List ℚ) : List ℚ := fillWindowAux vs ws 0 0

/-- The inner `for j := i; j <= limit; j++` search of
`AttachFanCurveData`: starting from `nextValueIdx = i`, every key
`j ≥ i` present in `curveData` overwrites `(nextValueIdx, nextValueAvg)`
— there is no `break`, so the result is the largest key in `[i, 255]`,
not the nearest one.  The initial average component is never consumed
when no key is found. -/
def nextValSearch (cd : CurveList) (i : Nat) : Int × ℚ :=
  ((List.range (256 - i)).map (fun d => ((i + d : Nat) : Int))).foldl
    (fun st j =>
      match cd.lookup j with
      | some pv => (j, listAvg pv)
      | none => st)
    ((i : Int), 0)

/-- The else-branch of `AttachFanCurveData`'s outer loop, entered when
`i` has no non-empty entry in `curveData` (`last = (lastValueIdx,
lastValueAvg)`).  When the inner search comes back empty
(`nextValueIdx == i`), the Go code runs `copy(pointValues, valuesCopy)`
with the empty destination `valuesCopy` as first argument — copying
nothing — and then replaces `pointValues` with that empty slice, so the
window is built from no values at all; otherwise a single linearly
interpolated value is used.  `_pv0` (the incoming `pointValues`) is
overwritten on both paths. -/
def attachMissing (cd : CurveList) (ws : Nat) (i : Nat) (last : Int × ℚ) (_pv0 : List ℚ) :
    (Int × ℚ) × List ℚ :=
  let nv := nextValSearch cd i
  let pv :=
    if nv.1 = (i : Int) then ([] : List ℚ)
    else [last.2 + ratio (i : ℚ) ((last.1 : Int) : ℚ) ((nv.1 : Int) : ℚ) * (nv.2 - last.2)]
  (last, fillWindow ws pv)

/-- One iteration of `AttachFanCurveData`'s outer loop at PWM `i`: a key
with a non-empty value list updates `(lastValueIdx, lastValueAvg)` and
fills the window from its values; a missing key enters the else-branch
with `pointValues = [lastValueAvg]`, a present-but-empty key with its
(non-nil) empty slice. -/
def attachStep (cd : CurveList) (ws : Nat) (i : Nat) (last : Int × ℚ) :
    (Int × ℚ) × List ℚ :=
  match cd.lookup (i : Int) with
  | some pv =>
    if 0 < pv.length then (((i : Int), listAvg pv), fillWindow ws pv)
    else attachMissing cd ws i last pv
  | none => attachMissing cd ws i last [last.2]

/-- The outer `for i := 0; i <= limit; i++` loop of `AttachFanCurveData`,
producing the list of `(i, window)` entries it stores into the fan's
curve-data map, threading `(lastValueIdx, lastValueAvg)`. -/
def attachFillAux (cd : CurveList) (ws : Nat) : List Nat → (Int × ℚ) → CurveList
  | [], _ => []
  | i :: is, last =>
    let r := attachStep cd ws i last
    ((i : Int), r.2) :: attachFillAux cd ws is r.1

/-- All 256 entries `AttachFanCurveData` computes from persisted data
`cd`, starting from Go's zero values `lastValueIdx = 0`,
`lastValueAvg = 0`. -/
def attachFill (cd : CurveList) (ws : Nat) : CurveList :=
  attachFillAux cd ws (List.range 256) ((0 : Int), (0 : ℚ))

/-- Modelled from the spec (for comparison with the code): the value §4.9
prescribes for PWM `i` — defined PWMs keep their average; a missing PWM
is linearly interpolated between the averages of the nearest lower and
nearest higher defined PWMs; below the lowest defined PWM the lowest
average is repeated, above the highest the highest average is
repeated. -/
def specFillValue (cd : CurveList) (i : Nat) : ℚ :=
  match cd.lookup (i : Int) with
  | some vs => listAvg vs
  | none =>
    let keys := (cd.map Prod.fst).insertionSort (· ≤ ·)
    let lower := (keys.filter (fun k => decide (k < (i : Int)))).getLast?
    let higher := (keys.filter (fun k => decide ((i : Int) < k))).head?
    match lower, higher with
    | none, none => 0
    | none, some h => listAvg ((cd.lookup h).getD [])
    | some l, none => listAvg ((cd.lookup l).getD [])
    | some l, some h =>
      let la := listAvg ((cd.lookup l).getD [])
      let ha := listAvg ((cd.lookup h).getD [])
      la + ((i : ℚ) - (l : ℚ)) / ((h : ℚ) - (l : ℚ)) * (ha - la)

/-- Storing into the Go map `(*data)[i] = window`: replace an existing
key's entry, or add a new one. -/
def insertKV (m : CurveList) (k : Int) (v : List ℚ) : CurveList :=
  if (m.lookup k).isSome then m.map (fun p => if p.1 = k then (k, v) else p)
  else m ++ [(k, v)]

/-- The sequence of map stores performed by `AttachFanCurveData` into the
fan's curve-data map. -/
def storeAll (base : CurveList) (entries : CurveList) : CurveList :=
  entries.foldl (fun b e => insertKV b e.1 e.2) base

/-- The mutable per-fan state touched by the embedded operations: the RPM
moving average, the in-memory curve-data map, and the PWM boundary
fields of `fans.HwMonFan`. -/
structure FanState where
  rpmAvg : ℚ
  curveData : CurveList
  minPwm : Int
  startPwm : Int
  maxPwm : Int
deriving DecidableEq

/-- The fan state produced by a successful `AttachFanCurveData` run: the
256 computed windows are stored into the fan's curve-data map,
`GetPwmBoundaries` is evaluated on the fan, and `start_pwm`, `max_pwm`
and `min_pwm` (set to `start_pwm` — "we don't have a way to determine
this yet") are assigned. -/
def attachResult (m : CurveList) (ws : Nat) (fan : FanState) : FanState :=
  let data := storeAll fan.curveData (attachFill m ws)
  let b := GetPwmBoundaries data
  { fan with curveData := data, startPwm := b.1, maxPwm := b.2, minPwm := b.1 }

/-- `AttachFanCurveData`: a nil or empty persisted map is rejected with
`os.ErrInvalid`; otherwise the fan is updated as in `attachResult`. -/
def AttachFanCurveData (cd : Option CurveList) (ws : Nat) (fan : FanState) :
    Except Unit FanState :=
  match cd with
  | none => Except.error ()
  | some m =>
    if m.length ≤ 0 then Except.error ()
    else Except.ok (attachResult m ws fan)

/-- Modelled from the spec: `util.updateSimpleMovingAvg` is not under
`src/`; the spec says each RPM sample updates the fan's moving average
over the fixed rolling-window size. -/
def updateSimpleMovingAvg (oldAvg : ℚ) (n : Nat) (newValue : ℚ) : ℚ :=
  oldAvg + (newValue - oldAvg) / (n : ℚ)

/-- Appending to a size-`ws` rolling window: the window retains the last
`ws` appended values. -/
def wAppend (ws : Nat) (w : List ℚ) (v : ℚ) : List ℚ :=
  let w2 := w ++ [v]
  w2.drop (w2.length - ws)

/-- `measureRpm` (first `internal` revision): read the fan's current PWM
and RPM, update the RPM moving average, and append the RPM to the
rolling window stored under the current PWM key (creating the window if
the key is new).  The sysfs reads are passed in as `pwm` and `rpm`. -/
def measureRpm (ws : Nat) (pwm rpm : Int) (fan : FanState) : FanState :=
  let avg2 := updateSimpleMovingAvg fan.rpmAvg ws (rpm : ℚ)
  let w := (fan.curveData.lookup pwm).getD []
  let w2 := wAppend ws w (rpm : ℚ)
  { fan with rpmAvg := avg2, curveData := insertKV fan.curveData pwm w2 }

/-- The tick action of the first `internal` revision's `rpmMonitor`: on
every tick it calls `measureRpm`. -/
def rpmMonitorTick (ws : Nat) (pwm rpm : Int) (fan : FanState) : FanState :=
  measureRpm ws pwm rpm fan

/-- The tick action of the second `internal` revision's `rpmMonitor`
(lines 783–793): the tick branch contains only a TODO comment with
`measureRpm(fanId)` commented out, so the fan state is untouched. -/
def rpmMonitorTickTodo (fan : FanState) : FanState := fan

/-- One fan action performed by the supervisor's restore handler. -/
inductive FanAction
  | setPwmEnabled (v : Int)
  | setPwm (v : Int)
deriving DecidableEq

/-- The fan-restoration handler installed by `Run` (the error callback of
the fan-controller actor): only when `fan.GetOriginalPwmEnabled() != 1`
does it attempt `fan.SetPwmEnabled(original)`, returning on success;
otherwise (or when that attempt fails) it runs `setPwm(fan,
MaxPwmValue)`, warning when that write also fails.  `eOk`/`pOk` are the
outcomes of the two writes; the result is the trace of attempted writes
and whether the "unable to restore" warning is emitted. -/
def restoreFanSettings (orig : Int) (eOk pOk : Bool) : List FanAction × Bool :=
  if orig ≠ 1 then
    if eOk then ([FanAction.setPwmEnabled orig], false)
    else ([FanAction.setPwmEnabled orig, FanAction.setPwm MaxPwmValue], !pOk)
  else ([FanAction.setPwm MaxPwmValue], !pOk)

/-- A discovered hwmon fan, as far as config binding needs it. -/
structure HwMonFanDev where
  index : Int
deriving DecidableEq

/-- A discovered hwmon sensor, as far as config binding needs it. -/
structure HwMonSensorDev where
  index : Int
deriving DecidableEq

/-- A discovered controller with its platform string and its fan and
sensor lists. -/
structure HwMonControllerDev where
  platform : String
  fans : List HwMonFanDev
  sensors : List HwMonSensorDev
deriving DecidableEq

/-- A fan config entry; `isHwMon` is `Type == FanTypeHwMon` and
`platform`/`index` are the unmarshalled `HwMonFanParams`. -/
structure FanConfig where
  id : String
  isHwMon : Bool
  platform : String
  index : Int
deriving DecidableEq

/-- A sensor config entry; `isHwMon` is `Type == SensorTypeHwMon` and
`platform`/`index` are the unmarshalled `HwMonSensor` params. -/
structure SensorConfig where
  id : String
  isHwMon : Bool
  platform : String
  index : Int
deriving DecidableEq

/-- The match test of `findFanConfig`: a hwmon-typed config binds when
`controller.Platform == c.Platform && hwmonFan.Index == c.Index` (file
configs are an unimplemented TODO branch). -/
def fanConfigMatches (ctrl : HwMonControllerDev) (fan : HwMonFanDev) (c : FanConfig) : Bool :=
  c.isHwMon && (ctrl.platform == c.platform) && (fan.index == c.index)

/-- `findFanConfig`: the first fan config entry matching the controller
and fan, if any. -/
def findFanConfig (cfgs : List FanConfig) (ctrl : HwMonControllerDev) (fan : HwMonFanDev) :
    Option FanConfig :=
  cfgs.find? (fanConfigMatches ctrl fan)

/-- The match test of `findSensorConfig`. -/
def sensorConfigMatches (ctrl : HwMonControllerDev) (s : HwMonSensorDev) (c : SensorConfig) :
    Bool :=
  c.isHwMon && (ctrl.platform == c.platform) && (s.index == c.index)

/-- `findSensorConfig`: the first sensor config entry matching the
controller and sensor, if any. -/
def findSensorConfig (cfgs : List SensorConfig) (ctrl : HwMonControllerDev)
    (s : HwMonSensorDev) : Option SensorConfig :=
  cfgs.find? (sensorConfigMatches ctrl s)

/-- The config ids `MapConfigToControllers` enters into `FanMap`: for
each discovered fan of each controller, the id of the first matching fan
config (fans with no match are skipped without any error). -/
def mappedFanConfigIds (cfgs : List FanConfig) (ctrls : List HwMonControllerDev) :
    List String :=
  (ctrls.map (fun ctrl =>
    ctrl.fans.filterMap (fun f => (findFanConfig cfgs ctrl f).map FanConfig.id))).flatten

/-- The config ids `MapConfigToControllers` enters into `SensorMap`
(sensors with no match hit the `continue` branch). -/
def mappedSensorConfigIds (cfgs : List SensorConfig) (ctrls : List HwMonControllerDev) :
    List String :=
  (ctrls.map (fun ctrl =>
    ctrl.sensors.filterMap (fun s => (findSensorConfig cfgs ctrl s).map SensorConfig.id))).flatten

/-- The `count` computed by `Run`'s fan-controller loop: the number of
discovered fans that received a config in `MapConfigToControllers`. -/
def configuredFanCount (cfgs : List FanConfig) (ctrls : List HwMonControllerDev) : Nat :=
  (ctrls.map (fun ctrl =>
    ctrl.fans.countP (fun f => (findFanConfig cfgs ctrl f).isSome))).sum

/-- `Run`'s only abort tied to config matching: `ui.Fatal("No valid fan
configurations, exiting.")` fires exactly when `count == 0`. -/
def runAbortsNoFans (cfgs : List FanConfig) (ctrls : List HwMonControllerDev) : Bool :=
  configuredFanCount cfgs ctrls == 0

/-- Byte-level prefix test on character lists. -/
def isPrefixL : List Char → List Char → Bool
  | [], _ => true
  | _ :: _, [] => false
  | p :: ps, c :: cs => p == c && isPrefixL ps cs

/-- Whether `pat` occurs as a contiguous substring of `s`. -/
def hasSubstring (pat : List Char) : List Char → Bool
  | [] => isPrefixL pat []
  | c :: rest => isPrefixL pat (c :: rest) || hasSubstring pat rest

/-- `findPlatform` as written in the source: it compiles the literal
pattern `.*/platform/` + open-brace + close-brace + `/.*` (Go's regexp
treats an empty repetition brace pair as two literal characters), so for
a newline-free device path `FindString` returns the whole path when it
contains the twelve-character literal `/platform/` + braces + `/`, and
the empty string otherwise. -/
def findPlatform (path : List Char) : List Char :=
  if hasSubstring "/platform/\x7b\x7d/".data path then path else []

/-- The platform assignment in `FindControllers`: `findPlatform`'s
result, with the controller identifier substituted when it is empty. -/
def controllerPlatform (path identifier : List Char) : List Char :=
  let platform := findPlatform path
  if platform.length ≤ 0 then identifier else platform

/-- Modelled from the claim's words for comparison: whether the path
matches `.*/platform/[^/]+/.*`, i.e. contains a `/platform/<component>/`
segment with a non-empty slash-free component. -/
def specPlatformSegment : List Char → Bool
  | [] => false
  | c :: rest =>
    (isPrefixL "/platform/".data (c :: rest) &&
      (let t := (c :: rest).drop 10
       let seg := t.takeWhile (fun ch => ch != '/')
       !seg.isEmpty && ((t.drop seg.length).head? == some '/'))) ||
    specPlatformSegment rest

/-- An abnormal termination of a Go function: a runtime panic (index out
of range, nil dereference) or a `ui.Fatal` exit. -/
inductive GoAbort
  | panicOutOfRange
  | fatalMsg (msg : String)
deriving DecidableEq

/-- `strconv.Atoi(file[len(file)-1:])` in `createFans`: the last
character of the file name parsed as a digit. -/
def parseIndex (file : String) : Option Int :=
  match file.data.getLast? with
  | some c => if c.isDigit then some ((c.toNat - 48 : Nat) : Int) else none
  | none => none

/-- The `fans.HwMonFan` struct as constructed by `createFans`. -/
structure HwMonFan where
  name : String
  label : String
  index : Int
  pwmOutput : String
  rpmInput : String
  rpmMovingAvg : ℚ
  minPwm : Int
  maxPwm : Int
  curveData : CurveList
  lastSetPwm : Int
  originalPwmEnabled : Int
deriving DecidableEq

/-- The `for idx, output := range outputs` loop of `createFans`.  Each
iteration computes the label, parses the index digit (a `ui.Fatal` on
failure), then evaluates the struct literal whose `RpmInput` field is
`inputs[idx]` — a runtime panic when `idx` is out of range of the
independently discovered input list — and finally reads `pwm_enable`
(a `ui.Fatal` on failure).  `labelOf` and `pwmEnabledOf` stand for the
sysfs reads; `util.FindFilesMatching` is not under `src/`, so the two
file lists are passed in directly. -/
def createFansAux (inputs : List String) (labelOf : String → String)
    (pwmEnabledOf : String → Option Int) :
    Nat → List String → Except GoAbort (List HwMonFan)
  | _, [] => Except.ok []
  | idx, output :: rest =>
    let label := labelOf output
    match parseIndex output with
    | none => Except.error (GoAbort.fatalMsg "strconv.Atoi")
    | some index =>
      if h : idx < inputs.length then
        let fan : HwMonFan :=
          { name := output, label := label, index := index, pwmOutput := output,
            rpmInput := inputs[idx], rpmMovingAvg := 0, minPwm := MinPwmValue,
            maxPwm := MaxPwmValue, curveData := [], lastSetPwm := InitialLastSetPwm,
            originalPwmEnabled := 0 }
        match pwmEnabledOf output with
        | none => Except.error (GoAbort.fatalMsg "Cannot read pwm_enable value")
        | some pe =>
          match createFansAux inputs labelOf pwmEnabledOf (idx + 1) rest with
          | Except.ok fans => Except.ok ({ fan with originalPwmEnabled := pe } :: fans)
          | Except.error e => Except.error e
      else Except.error GoAbort.panicOutOfRange

/-- `createFans`: `inputs` are the files matching `^fan[1-9]_input$` and
`outputs` the files matching `^pwm[1-9]$` of one device directory. -/
def createFans (inputs outputs : List String) (labelOf : String → String)
    (pwmEnabledOf : String → Option Int) : Except GoAbort (List HwMonFan) :=
  createFansAux inputs labelOf pwmEnabledOf 0 outputs

namespace GpbLoop

theorem gpbLoop_eq (m : CurveList) :
    ∀ (ks : List Int) (r p s : Int),
      gpbLoop m ks (r, p, s) =
        ((maxFold (truncAvgAt m) ks (r, p)).1, (maxFold (truncAvgAt m) ks (r, p)).2,
          startFold (truncAvgAt m) ks s) := by
  intro ks
  induction ks with
  | nil => intro r p s; rfl
  | cons k ks ih =>
    intro r p s
    rw [gpbLoop, maxFold, startFold]
    by_cases h : truncAvgAt m k > r
    · simp only [if_pos h]
      exact ih (truncAvgAt m k) k _
    · simp only [if_neg h]
      exact ih r p _

theorem startFold_le (a : Int → Int) :
    ∀ (ks : List Int) (s : Int), startFold a ks s ≤ s := by
  intro ks
  induction ks with
  | nil => intro s; exact le_refl s
  | cons k ks ih =>
    intro s
    rw [startFold]
    by_cases h : a k > 0 ∧ k < s
    · rw [if_pos h]
      exact le_trans (ih k) (le_of_lt h.2)
    · rw [if_neg h]
      exact ih s

theorem startFold_cases (a : Int → Int) :
    ∀ (ks : List Int) (s : Int),
      startFold a ks s = s ∨ (startFold a ks s ∈ ks ∧ 0 < a (startFold a ks s)) := by
  intro ks
  induction ks with
  | nil => intro s; exact Or.inl rfl
  | cons k ks ih =>
    intro s
    rw [startFold]
    by_cases h : a k > 0 ∧ k < s
    · rw [if_pos h]
      rcases ih k with h1 | h1
      · exact Or.inr ⟨by rw [h1]; exact List.mem_cons_self k ks, by rw [h1]; exact h.1⟩
      · exact Or.inr ⟨List.mem_cons_of_mem k h1.1, h1.2⟩
    · rw [if_neg h]
      rcases ih s with h1 | h1
      · exact Or.inl h1
      · exact Or.inr ⟨List.mem_cons_of_mem k h1.1, h1.2⟩

theorem startFold_le_pos (a : Int → Int) :
    ∀ (ks : List Int) (s k : Int), k ∈ ks → 0 < a k → startFold a ks s ≤ k := by
  intro ks
  induction ks with
  | nil => intro s k hk; exact absurd hk (List.not_mem_nil k)
  | cons k0 ks ih =>
    intro s k hk hpos
    rw [startFold]
    rcases List.mem_cons.mp hk with rfl | hk
    · by_cases h : a k > 0 ∧ k < s
      · rw [if_pos h]; exact startFold_le a ks k
      · have hks : s ≤ k := by
          rcases not_and_or.mp h with h1 | h1
          · exact absurd hpos (by simpa using h1)
          · exact le_of_not_lt h1
        rw [if_neg h]
        exact le_trans (startFold_le a ks s) hks
    · by_cases h : a k0 > 0 ∧ k0 < s
      · rw [if_pos h]; exact ih k0 k hk hpos
      · rw [if_neg h]; exact ih s k hk hpos

theorem startFold_of_no_pos (a : Int → Int) :
    ∀ (ks : List Int) (s : Int), (∀ k ∈ ks, a k ≤ 0) → startFold a ks s = s := by
  intro ks
  induction ks with
  | nil => intro s _; rfl
  | cons k ks ih =>
    intro s hnp
    rw [startFold, if_neg, ih s fun k hk => hnp k (List.mem_cons_of_mem _ hk)]
    intro h
    exact absurd (hnp k (List.mem_cons_self k ks)) (not_le.mpr h.1)

theorem maxFold_fst_ge (a : Int → Int) :
    ∀ (ks : List Int) (r p : Int), r ≤ (maxFold a ks (r, p)).1 := by
  intro ks
  induction ks with
  | nil => intro r p; exact le_refl r
  | cons k ks ih =>
    intro r p
    rw [maxFold]
    by_cases h : a k > r
    · rw [if_pos h]; exact le_trans (le_of_lt h) (ih (a k) k)
    · rw [if_neg h]; exact ih r p

theorem maxFold_fst_ge_mem (a : Int → Int) :
    ∀ (ks : List Int) (r p k : Int), k ∈ ks → a k ≤ (maxFold a ks (r, p)).1 := by
  intro ks
  induction ks with
  | nil => intro r p k hk; exact absurd hk (List.not_mem_nil k)
  | cons k0 ks ih =>
    intro r p k hk
    rw [maxFold]
    rcases List.mem_cons.mp hk with rfl | hk
    · by_cases h : a k > r
      · rw [if_pos h]; exact maxFold_fst_ge a ks (a k) k
      · rw [if_neg h]; exact le_trans (le_of_not_lt h) (maxFold_fst_ge a ks r p)
    · by_cases h : a k0 > r
      · rw [if_pos h]; exact ih (a k0) k0 k hk
      · rw [if_neg h]; exact ih r p k hk

theorem maxFold_cases (a : Int → Int) :
    ∀ (ks : List Int) (r p : Int),
      ((maxFold a ks (r, p)).1 = r ∧ (maxFold a ks (r, p)).2 = p) ∨
        (r < (maxFold a ks (r, p)).1 ∧ (maxFold a ks (r, p)).2 ∈ ks ∧
          a (maxFold a ks (r, p)).2 = (maxFold a ks (r, p)).1) := by
  intro ks
  induction ks with
  | nil => intro r p; exact Or.inl ⟨rfl, rfl⟩
  | cons k ks ih =>
    intro r p
    rw [maxFold]
    by_cases h : a k > r
    · rw [if_pos h]
      rcases ih (a k) k with ⟨h1, h2⟩ | ⟨h1, h2, h3⟩
      · exact Or.inr ⟨by rw [h1]; exact h, by rw [h2]; exact List.mem_cons_self k ks,
          by rw [h1, h2]⟩
      · exact Or.inr ⟨lt_trans h h1, List.mem_cons_of_mem k h2, h3⟩
    · rw [if_neg h]
      rcases ih r p with h1 | ⟨h1, h2, h3⟩
      · exact Or.inl h1
      · exact Or.inr ⟨h1, List.mem_cons_of_mem k h2, h3⟩

theorem maxFold_tie_min (a : Int → Int) :
    ∀ (ks : List Int) (r p : Int), ks.Sorted (· ≤ ·) →
      ∀ k ∈ ks, a k = (maxFold a ks (r, p)).1 → r < (maxFold a ks (r, p)).1 →
        (maxFold a ks (r, p)).2 ≤ k := by
  intro ks
  induction ks with
  | nil => intro r p _ k hk; exact absurd hk (List.not_mem_nil k)
  | cons k0 ks ih =>
    intro r p hsort k hk hak hgt
    have hs := List.sorted_cons.mp hsort
    rw [maxFold] at hak hgt ⊢
    by_cases h : a k0 > r
    · rw [if_pos h] at hak hgt ⊢
      rcases maxFold_cases a ks (a k0) k0 with ⟨h1, h2⟩ | ⟨h1, h2, h3⟩
      · rw [h2]
        rcases List.mem_cons.mp hk with rfl | hk
        · exact le_refl k
        · exact hs.1 k hk
      · rcases List.mem_cons.mp hk with rfl | hk
        · exact absurd h1 (by rw [← hak]; exact lt_irrefl _)
        · exact ih (a k0) k0 hs.2 k hk hak h1
    · rw [if_neg h] at hak hgt ⊢
      rcases List.mem_cons.mp hk with rfl | hk
      · have : a k ≤ r := le_of_not_lt h
        exact absurd hgt (by rw [← hak]; exact not_lt.mpr this)
      · exact ih r p hs.2 k hk hak hgt

end GpbLoop

theorem mem_sortedKeys (m : CurveList) (k : Int) :
    k ∈ sortedKeys m ↔ k ∈ m.map Prod.fst :=
  List.mem_insertionSort _

theorem sorted_sortedKeys (m : CurveList) : (sortedKeys m).Sorted (· ≤ ·) :=
  List.sorted_insertionSort _ _

theorem gpb_eq_folds (m : CurveList) (hne : m ≠ []) :
    GetPwmBoundaries m =
      (GpbLoop.startFold (truncAvgAt m) (sortedKeys m) 255,
        (GpbLoop.maxFold (truncAvgAt m) (sortedKeys m) (0, 255)).2) := by
  rw [GetPwmBoundaries, if_neg (by simp [List.length_eq_zero, hne])]
  show ((gpbLoop m (sortedKeys m) (0, 255, 255)).2.2,
    (gpbLoop m (sortedKeys m) (0, 255, 255)).2.1) = _
  rw [GpbLoop.gpbLoop_eq m (sortedKeys m) 0 255 255]

theorem gpb_empty : GetPwmBoundaries [] = (0, 255) := rfl

theorem gpb_no_pos (m : CurveList) (hne : m ≠ [])
    (hnp : ∀ k ∈ m.map Prod.fst, truncAvgAt m k ≤ 0) :
    GetPwmBoundaries m = (255, 255) := by
  rw [gpb_eq_folds m hne]
  have hnp' : ∀ k ∈ sortedKeys m, truncAvgAt m k ≤ 0 := fun k hk =>
    hnp k ((mem_sortedKeys m k).mp hk)
  rw [GpbLoop.startFold_of_no_pos _ _ _ hnp']
  rcases GpbLoop.maxFold_cases (truncAvgAt m) (sortedKeys m) 0 255 with ⟨_, h2⟩ | ⟨h1, h2, h3⟩
  · rw [h2]
  · exact absurd (h3 ▸ hnp' _ h2) (not_le.mpr h1)

theorem gpb_start_spec (m : CurveList) (hb : ∀ k ∈ m.map Prod.fst, k ≤ 255)
    (k0 : Int) (hk0 : k0 ∈ m.map Prod.fst) (hpos : 0 < truncAvgAt m k0) :
    (GetPwmBoundaries m).1 ∈ m.map Prod.fst ∧ 0 < truncAvgAt m (GetPwmBoundaries m).1 ∧
      ∀ k ∈ m.map Prod.fst, 0 < truncAvgAt m k → (GetPwmBoundaries m).1 ≤ k := by
  have hne : m ≠ [] := by
    intro h; rw [h] at hk0; exact absurd hk0 (List.not_mem_nil k0)
  rw [gpb_eq_folds m hne]
  dsimp only
  have hle : ∀ k ∈ m.map Prod.fst, 0 < truncAvgAt m k →
      GpbLoop.startFold (truncAvgAt m) (sortedKeys m) 255 ≤ k := fun k hk hp =>
    GpbLoop.startFold_le_pos _ _ 255 k ((mem_sortedKeys m k).mpr hk) hp
  rcases GpbLoop.startFold_cases (truncAvgAt m) (sortedKeys m) 255 with h | ⟨h1, h2⟩
  · have h255 : (255 : Int) ≤ k0 := h ▸ hle k0 hk0 hpos
    have hk255 : k0 = 255 := le_antisymm (hb k0 hk0) h255
    refine ⟨?_, ?_, hle⟩
    · rw [h, ← hk255]; exact hk0
    · rw [h, ← hk255]; exact hpos
  · exact ⟨(mem_sortedKeys m _).mp h1, h2, hle⟩

theorem gpb_max_spec (m : CurveList)
    (k0 : Int) (hk0 : k0 ∈ m.map Prod.fst) (hpos : 0 < truncAvgAt m k0) :
    (GetPwmBoundaries m).2 ∈ m.map Prod.fst ∧
      0 < truncAvgAt m (GetPwmBoundaries m).2 ∧
      (∀ k ∈ m.map Prod.fst, truncAvgAt m k ≤ truncAvgAt m (GetPwmBoundaries m).2) ∧
      ∀ k ∈ m.map Prod.fst, truncAvgAt m k = truncAvgAt m (GetPwmBoundaries m).2 →
        (GetPwmBoundaries m).2 ≤ k := by
  have hne : m ≠ [] := by
    intro h; rw [h] at hk0; exact absurd hk0 (List.not_mem_nil k0)
  rw [gpb_eq_folds m hne]
  dsimp only
  have hk0' : k0 ∈ sortedKeys m := (mem_sortedKeys m k0).mpr hk0
  have hF : 0 < (GpbLoop.maxFold (truncAvgAt m) (sortedKeys m) (0, 255)).1 :=
    lt_of_lt_of_le hpos (GpbLoop.maxFold_fst_ge_mem _ _ 0 255 k0 hk0')
  rcases GpbLoop.maxFold_cases (truncAvgAt m) (sortedKeys m) 0 255 with ⟨h1, _⟩ | ⟨h1, h2, h3⟩
  · exact absurd hF (by rw [h1]; exact lt_irrefl 0)
  · refine ⟨(mem_sortedKeys m _).mp h2, h3 ▸ hF, ?_, ?_⟩
    · intro k hk
      rw [h3]
      exact GpbLoop.maxFold_fst_ge_mem _ _ 0 255 k ((mem_sortedKeys m k).mpr hk)
    · intro k hk hak
      exact GpbLoop.maxFold_tie_min _ _ 0 255 (sorted_sortedKeys m) k
        ((mem_sortedKeys m k).mpr hk) (h3 ▸ hak) hF

/-- Claim C2 (counterexample): on `{10 ↦ [0]}` no key has a positive
average, yet `GetPwmBoundaries` returns `start_pwm = 255`, not the
claimed 0 (its `startPwm` variable starts at 255 and is only ever
lowered); and on `{10 ↦ [1/2], 20 ↦ [2]}` the smallest key with positive
window-average is 10, but the code truncates `1/2` to 0 and returns
`start_pwm = 20`. -/
theorem getPwmBoundaries_claim_counterexample :
    specStartPwmClaim [((10 : Int), [(0 : ℚ)])] = 0 ∧
    GetPwmBoundaries [((10 : Int), [(0 : ℚ)])] = (255, 255) ∧
    specStartPwmClaim [((10 : Int), [(1 / 2 : ℚ)]), (20, [2])] = 10 ∧
    (GetPwmBoundaries [((10 : Int), [(1 / 2 : ℚ)]), (20, [2])]).1 = 20 := by
  refine ⟨by decide, by decide, by decide, by decide⟩

/-- Claim C2 (amended): for curve data whose keys lie in the PWM range,
`GetPwmBoundaries` returns: on empty data `(0, 255)`; when no key has a
positive truncated (toward zero) window-average, `start_pwm = max_pwm =
255` (not `start_pwm = 0`); otherwise `start_pwm` is the smallest key
whose truncated window-average is positive and `max_pwm` is the key with
the greatest truncated window-average, ties broken toward the smallest
key. -/
theorem getPwmBoundaries_spec (m : CurveList) (hb : ∀ k ∈ m.map Prod.fst, k ≤ 255) :
    (m = [] → GetPwmBoundaries m = (0, 255)) ∧
    (m ≠ [] → (∀ k ∈ m.map Prod.fst, truncAvgAt m k ≤ 0) →
      GetPwmBoundaries m = (255, 255)) ∧
    (∀ k0 ∈ m.map Prod.fst, 0 < truncAvgAt m k0 →
      ((GetPwmBoundaries m).1 ∈ m.map Prod.fst ∧
        0 < truncAvgAt m (GetPwmBoundaries m).1 ∧
        (∀ k ∈ m.map Prod.fst, 0 < truncAvgAt m k → (GetPwmBoundaries m).1 ≤ k)) ∧
      ((GetPwmBoundaries m).2 ∈ m.map Prod.fst ∧
        (∀ k ∈ m.map Prod.fst, truncAvgAt m k ≤ truncAvgAt m (GetPwmBoundaries m).2) ∧
        (∀ k ∈ m.map Prod.fst, truncAvgAt m k = truncAvgAt m (GetPwmBoundaries m).2 →
          (GetPwmBoundaries m).2 ≤ k))) := by
  refine ⟨fun h => h ▸ gpb_empty, fun hne hnp => gpb_no_pos m hne hnp, ?_⟩
  intro k0 hk0 hpos
  have hmax := gpb_max_spec m k0 hk0 hpos
  exact ⟨gpb_start_spec m hb k0 hk0 hpos, hmax.1, hmax.2.2⟩

/-- Claim C2 (witness): the amended characterization applied to the
two-key table `{10 ↦ [3], 20 ↦ [7]}`, whose start PWM must be at
most 10. -/
theorem getPwmBoundaries_spec_witness :
    (GetPwmBoundaries [((10 : Int), [(3 : ℚ)]), (20, [7])]).1 ≤ 10 :=
  (((getPwmBoundaries_spec [((10 : Int), [(3 : ℚ)]), (20, [7])] (by decide)).2.2
    10 (by decide) (by decide)).1).2.2 10 (by decide) (by decide)

/-- Claim C9: `GetPwmBoundaries` sizes its key slice from `*pwmRpmMap`
before the nil check, so a nil curve-data pointer panics at the
dereference instead of reaching the empty-data branch (which returns
`startPwm = 0` and is reached only through a non-nil empty map). -/
theorem getPwmBoundaries_nil_panics :
    GetPwmBoundariesPtr none = Except.error "invalid memory address or nil pointer dereference" ∧
    (∀ r : Int × Int, GetPwmBoundariesPtr none ≠ Except.ok r) ∧
    GetPwmBoundariesPtr (some []) = Except.ok (0, 255) := by
  refine ⟨rfl, ?_, rfl⟩
  intro r h
  exact Except.noConfusion h

/-- Claim C1 (counterexample): for a fan whose `original_pwm_enable` is
1, the restore handler never attempts `set_pwm_enable(original)` — its
trace is just `set_pwm(255)` — refuting "this first attempt is made for
every fan regardless of the value of original_pwm_enable". -/
theorem restore_skips_enable_when_orig_one :
    (restoreFanSettings 1 true true).1 = [FanAction.setPwm 255] ∧
    FanAction.setPwmEnabled 1 ∉ (restoreFanSettings 1 true true).1 := by
  constructor
  · rfl
  · intro h
    simp [restoreFanSettings, MaxPwmValue] at h

/-- Claim C1 (amended): the restore handler attempts
`set_pwm_enable(original_pwm_enable)` first, and falls back to
`set_pwm(255)` only if that attempt fails, but only for fans whose
`original_pwm_enable` differs from 1; when it equals 1 the handler goes
directly to `set_pwm(255)`. -/
theorem restore_handler_spec (orig : Int) (eOk pOk : Bool) :
    (orig ≠ 1 →
      ((restoreFanSettings orig eOk pOk).1.head? = some (FanAction.setPwmEnabled orig) ∧
        (FanAction.setPwm MaxPwmValue ∈ (restoreFanSettings orig eOk pOk).1 ↔ eOk = false))) ∧
    (orig = 1 → (restoreFanSettings orig eOk pOk).1 = [FanAction.setPwm MaxPwmValue]) := by
  constructor
  · intro h
    rw [restoreFanSettings, if_pos h]
    cases eOk with
    | true => simp
    | false => simp
  · intro h
    rw [restoreFanSettings, if_neg (by simp [h])]

/-- Claim C1 (witness): instantiating the amended statement at a fan with
`original_pwm_enable = 2` whose enable write fails. -/
theorem restore_handler_spec_witness :
    (restoreFanSettings 2 false true).1.head? = some (FanAction.setPwmEnabled 2) := by
  exact ((restore_handler_spec 2 false true).1 (by decide)).1

theorem fillWindowAux_eq (vs : List ℚ) :
    ∀ (n k : Nat) (cur : ℚ), k + n ≤ vs.length →
      fillWindowAux vs n k cur = (vs.drop k).take n := by
  intro n
  induction n with
  | zero => intro k cur _; simp [fillWindowAux]
  | succ n ih =>
    intro k cur hle
    have hk : k < vs.length := by omega
    simp only [fillWindowAux, dif_pos hk]
    rw [ih (k + 1) _ (by omega), List.drop_eq_getElem_cons hk]
    rfl

theorem fillWindow_of_length (ws : Nat) (vs : List ℚ) (h : vs.length = ws) :
    fillWindow ws vs = vs := by
  rw [fillWindow, fillWindowAux_eq vs ws 0 0 (by omega), List.drop_zero, ← h,
    List.take_length]

theorem insertKV_of_lookup_none (m : CurveList) (k : Int) (v : List ℚ)
    (h : m.lookup k = none) : insertKV m k v = m ++ [(k, v)] := by
  rw [insertKV, h]
  rfl

theorem lookup_singleton_ne (k k' : Int) (v : List ℚ) (h : k' ≠ k) :
    ([(k, v)] : CurveList).lookup k' = none := by
  rw [List.lookup_cons, show (k' == k) = false from beq_eq_false_iff_ne.mpr h]
  rfl

theorem storeAll_of_disjoint :
    ∀ (entries base : CurveList),
      (∀ e ∈ entries, base.lookup e.1 = none) →
      (entries.map Prod.fst).Nodup →
      storeAll base entries = base ++ entries := by
  intro entries
  induction entries with
  | nil => intro base _ _; simp [storeAll]
  | cons e es ih =>
    intro base hdisj hnodup
    have hbe : base.lookup e.1 = none := hdisj e (List.mem_cons_self e es)
    rw [List.map_cons, List.nodup_cons] at hnodup
    show storeAll (insertKV base e.1 e.2) es = base ++ e :: es
    rw [insertKV_of_lookup_none base e.1 e.2 hbe]
    rw [ih (base ++ [(e.1, e.2)]) ?_ hnodup.2]
    · simp
    · intro f hf
      rw [List.lookup_append, hdisj f (List.mem_cons_of_mem e hf)]
      have hfe : f.1 ≠ e.1 := fun hh => hnodup.1 (hh ▸ List.mem_map_of_mem Prod.fst hf)
      rw [lookup_singleton_ne e.1 f.1 e.2 hfe]
      rfl

theorem attachFillAux_keys (cd : CurveList) (ws : Nat) :
    ∀ (is : List Nat) (last : Int × ℚ),
      (attachFillAux cd ws is last).map Prod.fst = is.map (fun i => ((i : Nat) : Int)) := by
  intro is
  induction is with
  | nil => intro last; rfl
  | cons i is ih =>
    intro last
    simp only [attachFillAux, List.map_cons]
    rw [ih]

theorem attachStep_defined (cd : CurveList) (ws : Nat) (i : Nat) (last : Int × ℚ)
    (vs : List ℚ) (hvs : cd.lookup ((i : Nat) : Int) = some vs) (hlen : 0 < vs.length) :
    attachStep cd ws i last = (((i : Int), listAvg vs), fillWindow ws vs) := by
  simp only [attachStep, hvs]
  rw [if_pos hlen]

theorem attachFillAux_lookup_dense (cd : CurveList) (ws : Nat) (hws : 0 < ws) :
    ∀ (is : List Nat) (last : Int × ℚ) (j : Nat), j ∈ is →
      (∀ i ∈ is, (cd.lookup ((i : Nat) : Int)).map List.length = some ws) →
      (attachFillAux cd ws is last).lookup ((j : Nat) : Int) =
        cd.lookup ((j : Nat) : Int) := by
  intro is
  induction is with
  | nil => intro last j hj _; exact absurd hj (List.not_mem_nil j)
  | cons i is ih =>
    intro last j hj hdense
    obtain ⟨vs, hvs, hlen⟩ := Option.map_eq_some'.mp (hdense i (List.mem_cons_self i is))
    simp only [attachFillAux]
    rw [attachStep_defined cd ws i last vs hvs (hlen ▸ hws)]
    dsimp only
    by_cases hji : j = i
    · subst hji
      rw [fillWindow_of_length ws vs hlen, List.lookup_cons_self]
      exact hvs.symm
    · have hbeq : (((j : Nat) : Int) == ((i : Nat) : Int)) = false := by
        refine beq_eq_false_iff_ne.mpr ?_
        intro hh
        exact hji (Nat.cast_injective hh)
      rw [List.lookup_cons, hbeq]
      exact ih _ j ((List.mem_cons.mp hj).resolve_left hji)
        (fun i' hi' => hdense i' (List.mem_cons_of_mem _ hi'))

set_option maxRecDepth 40000 in
/-- Claim C8 (counterexample): with rolling-window size 2, attaching the
already-dense data that maps every PWM to the one-element list `[5]`
produces the window `[5, 5]` at PWM 0 — the window loop pads the given
values up to the window size — so the resulting windows do not contain
exactly the given values. -/
theorem attachFill_changes_dense_data :
    (attachFill ((List.range 256).map (fun n => ((n : Int), [(5 : ℚ)]))) 2).lookup 0 =
      some [(5 : ℚ), 5] ∧
    ((List.range 256).map (fun n => ((n : Int), [(5 : ℚ)]))).lookup 0 = some [(5 : ℚ)] ∧
    ([(5 : ℚ), 5] : List ℚ) ≠ [(5 : ℚ)] := by
  refine ⟨by decide, by decide, by decide⟩

/-- Claim C8 (amended): the interpolation fill is a no-op on dense data
whose value lists all have exactly the rolling-window length: when the
given data defines, for every PWM in 0..=255, a value list of length
equal to the (positive) rolling-window size, every resulting window
contains exactly the given values. -/
theorem attachFill_dense_noop (cd : CurveList) (ws : Nat) (hws : 0 < ws)
    (hdense : ∀ n : Nat, n < 256 → (cd.lookup ((n : Nat) : Int)).map List.length = some ws) :
    ∀ n : Nat, n < 256 →
      (attachFill cd ws).lookup ((n : Nat) : Int) = cd.lookup ((n : Nat) : Int) := by
  intro n hn
  exact attachFillAux_lookup_dense cd ws hws (List.range 256) _ n
    (List.mem_range.mpr hn) (fun i hi => hdense i (List.mem_range.mp hi))

set_option maxRecDepth 40000 in
/-- Claim C8 (witness): the amended no-op statement applied, with window
size 1, to the dense table mapping every PWM to `[5]`. -/
theorem attachFill_dense_noop_witness :
    (attachFill ((List.range 256).map (fun n => ((n : Int), [(5 : ℚ)]))) 1).lookup 7 =
      ((List.range 256).map (fun n => ((n : Int), [(5 : ℚ)]))).lookup 7 :=
  attachFill_dense_noop ((List.range 256).map (fun n => ((n : Int), [(5 : ℚ)]))) 1
    (by decide) (by decide) 7 (by decide)

theorem attachFill_map_fst (m : CurveList) (ws : Nat) :
    (attachFill m ws).map Prod.fst = (List.range 256).map (fun n => ((n : Nat) : Int)) :=
  attachFillAux_keys m ws (List.range 256) ((0 : Int), (0 : ℚ))

theorem measureRpm_boundary_fields (ws : Nat) (pwm rpm : Int) (fan : FanState) :
    (measureRpm ws pwm rpm fan).minPwm = fan.minPwm ∧
    (measureRpm ws pwm rpm fan).startPwm = fan.startPwm ∧
    (measureRpm ws pwm rpm fan).maxPwm = fan.maxPwm :=
  ⟨rfl, rfl, rfl⟩

theorem attachResult_fields (m : CurveList) (ws : Nat) (fan : FanState) :
    (attachResult m ws fan).minPwm =
      (GetPwmBoundaries (storeAll fan.curveData (attachFill m ws))).1 ∧
    (attachResult m ws fan).startPwm =
      (GetPwmBoundaries (storeAll fan.curveData (attachFill m ws))).1 ∧
    (attachResult m ws fan).maxPwm =
      (GetPwmBoundaries (storeAll fan.curveData (attachFill m ws))).2 := by
  simp [attachResult]

theorem attachFill_store (m : CurveList) (ws : Nat) :
    storeAll [] (attachFill m ws) = attachFill m ws := by
  rw [storeAll_of_disjoint (attachFill m ws) [] (fun e _ => List.lookup_nil) ?_,
    List.nil_append]
  rw [attachFill_map_fst]
  exact (List.nodup_range 256).map Nat.cast_injective

/-- Claim C7: after `AttachFanCurveData` initializes a (freshly created)
fan from non-empty persisted curve data, computing the boundaries with
`GetPwmBoundaries` over the dense table and assigning `min_pwm =
start_pwm`, the fan satisfies `0 ≤ min_pwm ≤ start_pwm ≤ max_pwm ≤ 255`,
and the only state mutation the embedded sources perform afterwards
(`measureRpm`) leaves the three boundary fields unchanged. -/
theorem attachFanCurveData_invariant (m : CurveList) (ws : Nat) (fan : FanState)
    (hne : m ≠ []) (hfresh : fan.curveData = []) :
    AttachFanCurveData (some m) ws fan = Except.ok (attachResult m ws fan) ∧
    (0 ≤ (attachResult m ws fan).minPwm ∧
      (attachResult m ws fan).minPwm ≤ (attachResult m ws fan).startPwm ∧
      (attachResult m ws fan).startPwm ≤ (attachResult m ws fan).maxPwm ∧
      (attachResult m ws fan).maxPwm ≤ 255) ∧
    ∀ pwm rpm : Int,
      (measureRpm ws pwm rpm (attachResult m ws fan)).minPwm =
        (attachResult m ws fan).minPwm ∧
      (measureRpm ws pwm rpm (attachResult m ws fan)).startPwm =
        (attachResult m ws fan).startPwm ∧
      (measureRpm ws pwm rpm (attachResult m ws fan)).maxPwm =
        (attachResult m ws fan).maxPwm := by
  have hdata : storeAll fan.curveData (attachFill m ws) = attachFill m ws := by
    rw [hfresh]; exact attachFill_store m ws
  have hbounds : ∀ k ∈ (attachFill m ws).map Prod.fst, 0 ≤ k ∧ k ≤ 255 := by
    intro k hk
    rw [attachFill_map_fst] at hk
    obtain ⟨n, hn, rfl⟩ := List.mem_map.mp hk
    have := List.mem_range.mp hn
    constructor
    · exact Int.natCast_nonneg n
    · omega
  have hdne : attachFill m ws ≠ [] := by
    intro h
    have h2 := congrArg (List.map Prod.fst) h
    rw [attachFill_map_fst] at h2
    simp at h2
  obtain ⟨hf1, hf2, hf3⟩ := attachResult_fields m ws fan
  rw [hdata] at hf1 hf2 hf3
  refine ⟨?_, ?_, fun pwm rpm => measureRpm_boundary_fields ws pwm rpm _⟩
  · simp only [AttachFanCurveData]
    rw [if_neg (by simp [List.length_eq_zero, hne])]
  · rw [hf1, hf2, hf3]
    by_cases hpos : ∃ k0 ∈ (attachFill m ws).map Prod.fst, 0 < truncAvgAt (attachFill m ws) k0
    · obtain ⟨k0, hk0, hp0⟩ := hpos
      have hstart := gpb_start_spec (attachFill m ws) (fun k hk => (hbounds k hk).2) k0 hk0 hp0
      have hmax := gpb_max_spec (attachFill m ws) k0 hk0 hp0
      refine ⟨(hbounds _ hstart.1).1, le_refl _, ?_, (hbounds _ hmax.1).2⟩
      exact hstart.2.2 _ hmax.1 hmax.2.1
    · have hnp : ∀ k ∈ (attachFill m ws).map Prod.fst, truncAvgAt (attachFill m ws) k ≤ 0 := by
        intro k hk
        by_contra hc
        exact hpos ⟨k, hk, lt_of_not_le hc⟩
      rw [gpb_no_pos (attachFill m ws) hdne hnp]
      refine ⟨by norm_num, le_refl _, le_refl _, le_refl _⟩

/-- Claim C7 (witness): the invariant instantiated at the one-key
persisted table `{10 ↦ [100]}` with window size 1 and a fresh fan. -/
theorem attachFanCurveData_invariant_witness :
    0 ≤ (attachResult [((10 : Int), [(100 : ℚ)])] 1 ⟨0, [], 0, 0, 0⟩).minPwm ∧
    (attachResult [((10 : Int), [(100 : ℚ)])] 1 ⟨0, [], 0, 0, 0⟩).minPwm ≤
      (attachResult [((10 : Int), [(100 : ℚ)])] 1 ⟨0, [], 0, 0, 0⟩).startPwm :=
  ⟨(attachFanCurveData_invariant [((10 : Int), [(100 : ℚ)])] 1 ⟨0, [], 0, 0, 0⟩
      (by decide) rfl).2.1.1,
    (attachFanCurveData_invariant [((10 : Int), [(100 : ℚ)])] 1 ⟨0, [], 0, 0, 0⟩
      (by decide) rfl).2.1.2.1⟩

set_option maxRecDepth 40000 in
/-- Claim C3: evaluation of `AttachFanCurveData`'s fill at concrete
persisted data, against the interpolation the spec prescribes.  With
data `{0 ↦ [0], 10 ↦ [100], 20 ↦ [110]}` and window size 1, the spec's
nearest-neighbour interpolation gives 50 at PWM 5 (between keys 0
and 10), but the inner search lacks a `break` and the code interpolates
toward the farthest key 20, storing 27.5; above the highest key the spec
repeats 110, but the reversed `copy` makes the code build the window
from no values, storing 0; with data `{10 ↦ [100], 20 ↦ [110]}` the
spec repeats the lowest average 100 below key 10, but the code
interpolates from the zero-initialized `(lastValueIdx, lastValueAvg) =
(0, 0)`, storing 27.5 at PWM 5. -/
theorem attachFill_diverges_from_spec_interpolation :
    ((attachFill [((0 : Int), [(0 : ℚ)]), (10, [100]), (20, [110])] 1).lookup 5 =
        some [(55 : ℚ) / 2] ∧
      specFillValue [((0 : Int), [(0 : ℚ)]), (10, [100]), (20, [110])] 5 = 50) ∧
    ((attachFill [((0 : Int), [(0 : ℚ)]), (10, [100]), (20, [110])] 1).lookup 30 =
        some [(0 : ℚ)] ∧
      specFillValue [((0 : Int), [(0 : ℚ)]), (10, [100]), (20, [110])] 30 = 110) ∧
    ((attachFill [((10 : Int), [(100 : ℚ)]), (20, [110])] 1).lookup 5 =
        some [(55 : ℚ) / 2] ∧
      specFillValue [((10 : Int), [(100 : ℚ)]), (20, [110])] 5 = 100) := by
  exact ⟨⟨by decide, by decide⟩, ⟨by decide, by decide⟩, ⟨by decide, by decide⟩⟩

/-- Claim C4 (counterexample): with one discovered controller (platform
"p", one fan of index 1) and two hwmon fan configs — "A" matching it and
"B" for platform "q" index 9 matching nothing — the process does not
abort: the configured-fan count is 1, so `Run`'s only matching-related
`ui.Fatal` (count == 0) does not fire, and config "B" is silently absent
from the fan map. -/
theorem unmatched_config_not_fatal :
    runAbortsNoFans [⟨"A", true, "p", 1⟩, ⟨"B", true, "q", 9⟩]
      [⟨"p", [⟨1⟩], []⟩] = false ∧
    (∀ ctrl ∈ ([⟨"p", [⟨1⟩], []⟩] : List HwMonControllerDev), ∀ f ∈ ctrl.fans,
      fanConfigMatches ctrl f ⟨"B", true, "q", 9⟩ = false) ∧
    mappedFanConfigIds [⟨"A", true, "p", 1⟩, ⟨"B", true, "q", 9⟩]
      [⟨"p", [⟨1⟩], []⟩] = ["A"] ∧
    "B" ∉ mappedFanConfigIds [⟨"A", true, "p", 1⟩, ⟨"B", true, "q", 9⟩]
      [⟨"p", [⟨1⟩], []⟩] := by
  refine ⟨by decide, by decide, by decide, by decide⟩

/-- Claim C4 (amended): a configured hwmon fan or sensor whose
(platform, index) pair matches no discovered controller is silently
ignored — `findFanConfig`/`findSensorConfig` never return it, so it is
bound to nothing — and the only matching-related fatal error is `Run`'s
"No valid fan configurations" abort, which fires exactly when no
discovered fan at all received a config. -/
theorem unmatched_config_ignored (cfgs : List FanConfig) (scfgs : List SensorConfig)
    (ctrls : List HwMonControllerDev) (cfg : FanConfig) (scfg : SensorConfig)
    (hfan : ∀ ctrl ∈ ctrls, ∀ f ∈ ctrl.fans, fanConfigMatches ctrl f cfg = false)
    (hsen : ∀ ctrl ∈ ctrls, ∀ s ∈ ctrl.sensors, sensorConfigMatches ctrl s scfg = false) :
    (∀ ctrl ∈ ctrls, ∀ f ∈ ctrl.fans, findFanConfig cfgs ctrl f ≠ some cfg) ∧
    (∀ ctrl ∈ ctrls, ∀ s ∈ ctrl.sensors, findSensorConfig scfgs ctrl s ≠ some scfg) ∧
    (runAbortsNoFans cfgs ctrls = true ↔ configuredFanCount cfgs ctrls = 0) := by
  refine ⟨?_, ?_, ?_⟩
  · intro ctrl hc f hf heq
    have hp := List.find?_some heq
    rw [hfan ctrl hc f hf] at hp
    exact Bool.noConfusion hp
  · intro ctrl hc sen hs heq
    have hp := List.find?_some heq
    rw [hsen ctrl hc sen hs] at hp
    exact Bool.noConfusion hp
  · simp [runAbortsNoFans]

/-- Claim C4 (witness): the amended statement at the concrete controller
and the unmatched configs "B" (fan) and "S" (sensor). -/
theorem unmatched_config_ignored_witness :
    runAbortsNoFans [⟨"A", true, "p", 1⟩, ⟨"B", true, "q", 9⟩] [⟨"p", [⟨1⟩], []⟩] = true ↔
      configuredFanCount [⟨"A", true, "p", 1⟩, ⟨"B", true, "q", 9⟩] [⟨"p", [⟨1⟩], []⟩] = 0 :=
  (unmatched_config_ignored [⟨"A", true, "p", 1⟩, ⟨"B", true, "q", 9⟩] []
    [⟨"p", [⟨1⟩], []⟩] ⟨"B", true, "q", 9⟩ ⟨"S", true, "q", 1⟩
    (by decide) (by decide)).2.2

/-- Claim C5: `findPlatform` compiles the literal pattern
`.*/platform/` + braces + `/.*`, not `.*/platform/[^/]+/.*`.  On the
real sysfs path `/sys/devices/platform/nct6775.656/hwmon/hwmon2`, which
the claim's regex matches (it has the `/platform/nct6775.656/` segment),
the code's `FindString` returns the empty string, so `FindControllers`
falls back to the identifier; only a path literally containing
`/platform/` + braces + `/` is returned non-empty. -/
theorem findPlatform_literal_regex :
    specPlatformSegment "/sys/devices/platform/nct6775.656/hwmon/hwmon2".data = true ∧
    findPlatform "/sys/devices/platform/nct6775.656/hwmon/hwmon2".data = [] ∧
    controllerPlatform "/sys/devices/platform/nct6775.656/hwmon/hwmon2".data
      "nct6775".data = "nct6775".data ∧
    findPlatform "/x/platform/\x7b\x7d/y".data = "/x/platform/\x7b\x7d/y".data := by
  refine ⟨by decide, by decide, by decide, by decide⟩

/-- Claim C6: in the first `internal` revision, each RPM tick runs
`measureRpm`, which appends the observed RPM to the window under the
current PWM key and updates the moving average; in the second revision
the `rpmMonitor` tick body is an empty TODO (the `measureRpm` call is
commented out), so a tick leaves the fan state — curve data and moving
average alike — completely unchanged. -/
theorem rpmMonitor_todo_tick_noop :
    rpmMonitorTickTodo ⟨0, [], 0, 0, 0⟩ = ⟨0, [], 0, 0, 0⟩ ∧
    (rpmMonitorTick 10 100 1000 ⟨0, [], 0, 0, 0⟩).curveData =
      [((100 : Int), [(1000 : ℚ)])] ∧
    (rpmMonitorTick 10 100 1000 ⟨0, [], 0, 0, 0⟩).rpmAvg = 100 ∧
    rpmMonitorTick 10 100 1000 ⟨0, [], 0, 0, 0⟩ ≠ ⟨0, [], 0, 0, 0⟩ := by
  refine ⟨rfl, by decide, by decide, by decide⟩

theorem createFansAux_panics (inputs : List String) (labelOf : String → String)
    (pwmEnabledOf : String → Option Int) :
    ∀ (outputs : List String) (idx : Nat),
      (∀ o ∈ outputs, (parseIndex o).isSome = true) →
      (∀ o ∈ outputs, (pwmEnabledOf o).isSome = true) →
      idx ≤ inputs.length → inputs.length - idx < outputs.length →
      createFansAux inputs labelOf pwmEnabledOf idx outputs =
        Except.error GoAbort.panicOutOfRange := by
  intro outputs
  induction outputs with
  | nil =>
    intro idx _ _ _ hlt
    exact absurd hlt (Nat.not_lt_zero _)
  | cons o os ih =>
    intro idx hparse hpe hidx hlt
    obtain ⟨index, hindex⟩ :=
      Option.isSome_iff_exists.mp (hparse o (List.mem_cons_self o os))
    by_cases h : idx < inputs.length
    · obtain ⟨pe, hpe1⟩ :=
        Option.isSome_iff_exists.mp (hpe o (List.mem_cons_self o os))
      simp only [createFansAux, hindex, dif_pos h, hpe1]
      rw [ih (idx + 1) (fun o2 ho2 => hparse o2 (List.mem_cons_of_mem o ho2))
        (fun o2 ho2 => hpe o2 (List.mem_cons_of_mem o ho2)) (by omega)
        (by simp at hlt; omega)]
    · simp only [createFansAux, hindex, dif_neg h]

/-- Claim C10: `createFans` pairs pwm output files with rpm input files
purely by position (`RpmInput: inputs[idx]`); whenever a device
directory has more `^pwm[1-9]$` files than `^fan[1-9]_input$` files (and
no earlier abort intervenes: every output name parses and `pwm_enable`
is readable), the indexing panics instead of ever constructing a fan
without an rpm input. -/
theorem createFans_extra_pwm_panics (inputs outputs : List String)
    (labelOf : String → String) (pwmEnabledOf : String → Option Int)
    (hparse : ∀ o ∈ outputs, (parseIndex o).isSome = true)
    (hpe : ∀ o ∈ outputs, (pwmEnabledOf o).isSome = true)
    (hlen : inputs.length < outputs.length) :
    createFans inputs outputs labelOf pwmEnabledOf =
      Except.error GoAbort.panicOutOfRange := by
  rw [createFans]
  exact createFansAux_panics inputs labelOf pwmEnabledOf outputs 0 hparse hpe
    (Nat.zero_le _) (by omega)

/-- Claim C10 (witness): a device with one `pwm1` output and no fan
inputs panics. -/
theorem createFans_extra_pwm_panics_witness :
    ([] : List String).length < ["pwm1"].length ∧
    createFans [] ["pwm1"] (fun _ => "") (fun _ => some 2) =
      Except.error GoAbort.panicOutOfRange :=
  ⟨by decide, createFans_extra_pwm_panics [] ["pwm1"] (fun _ => "") (fun _ => some 2)
    (by decide) (by decide) (by decide)⟩

end Fan2go
